import Mathlib

/-!
Shallow embedding of the kalman-viz statistical core (src/correlation.ts and
the extraction helpers of the file parser), together with proofs about the
embedded definitions.

Numbers: the source operates on JS `number`s.  We model them exactly: finite
values are rationals, and the IEEE special values NaN / Infinity / -Infinity
are explicit constructors.  Division and the other operations follow the JS
semantics on these values (ignoring signed zero and rounding, which no claim
here depends on).  The Pearson-correlation coefficient involves `Math.sqrt`,
so it is modelled as a real number via `Real.sqrt`.

Records: JS objects and `Map`s (string-keyed, insertion ordered, unique keys)
are modelled as association lists with an in-place-update assignment.
-/

/-- A JS number: a finite rational or one of the IEEE special values. -/
inductive JSNum where
  | fin (q : ℚ)
  | nan
  | inf
  | ninf
deriving DecidableEq

namespace JSNum

/-- JS addition on numbers. -/
def add : JSNum → JSNum → JSNum
  | fin a, fin b => fin (a + b)
  | nan, _ => nan
  | _, nan => nan
  | inf, ninf => nan
  | ninf, inf => nan
  | inf, _ => inf
  | _, inf => inf
  | ninf, _ => ninf
  | _, ninf => ninf

/-- JS negation. -/
def neg : JSNum → JSNum
  | fin a => fin (-a)
  | nan => nan
  | inf => ninf
  | ninf => inf

/-- JS subtraction. -/
def sub (a b : JSNum) : JSNum := add a (neg b)

/-- JS multiplication on numbers (`Infinity * 0` is NaN). -/
def mul : JSNum → JSNum → JSNum
  | fin a, fin b => fin (a * b)
  | nan, _ => nan
  | _, nan => nan
  | inf, inf => inf
  | inf, ninf => ninf
  | ninf, inf => ninf
  | ninf, ninf => inf
  | inf, fin b => if b = 0 then nan else if 0 < b then inf else ninf
  | fin a, inf => if a = 0 then nan else if 0 < a then inf else ninf
  | ninf, fin b => if b = 0 then nan else if 0 < b then ninf else inf
  | fin a, ninf => if a = 0 then nan else if 0 < a then ninf else inf

/-- JS division on numbers (`0/0` is NaN, `x/0` is a signed infinity,
`x/Infinity` is 0, `Infinity/Infinity` is NaN). -/
def div : JSNum → JSNum → JSNum
  | nan, _ => nan
  | _, nan => nan
  | inf, inf => nan
  | inf, ninf => nan
  | ninf, inf => nan
  | ninf, ninf => nan
  | inf, fin b => if 0 ≤ b then inf else ninf
  | ninf, fin b => if 0 ≤ b then ninf else inf
  | fin _, inf => fin 0
  | fin _, ninf => fin 0
  | fin a, fin b =>
      if b = 0 then
        if a = 0 then nan else if 0 < a then inf else ninf
      else fin (a / b)

/-- JS strict greater-than comparison (false whenever NaN is involved). -/
def gt : JSNum → JSNum → Bool
  | fin a, fin b => decide (b < a)
  | inf, fin _ => true
  | inf, ninf => true
  | fin _, ninf => true
  | _, _ => false

/-- Whether a JS number is a finite value. -/
def isFin : JSNum → Bool
  | fin _ => true
  | _ => false

@[simp] theorem add_fin (a b : ℚ) : add (fin a) (fin b) = fin (a + b) := rfl

@[simp] theorem sub_fin (a b : ℚ) : sub (fin a) (fin b) = fin (a - b) := by
  simp [sub, add, neg, sub_eq_add_neg]

@[simp] theorem mul_fin (a b : ℚ) : mul (fin a) (fin b) = fin (a * b) := rfl

@[simp] theorem isFin_fin (a : ℚ) : isFin (fin a) = true := rfl

theorem div_fin_of_ne {a b : ℚ} (hb : b ≠ 0) : div (fin a) (fin b) = fin (a / b) := by
  simp [div, hb]

theorem div_fin_zero_not_isFin (a : ℚ) : isFin (div (fin a) (fin 0)) = false := by
  by_cases ha : a = 0
  · simp [div, ha, isFin]
  · rcases lt_trichotomy a 0 with h | h | h
    · simp [div, ha, not_lt.mpr (le_of_lt h), isFin]
    · exact absurd h ha
    · simp [div, ha, h, isFin]

theorem sub_not_isFin (a : ℚ) {x : JSNum} (hx : isFin x = false) :
    isFin (sub (fin a) x) = false := by
  cases x <;> simp_all [sub, neg, add, isFin]

end JSNum

/-! ## JS records (string-keyed objects / insertion-ordered maps) -/

/-- A JS object with string keys, as an insertion-ordered association list. -/
abbrev Rec (α : Type) := List (String × α)

/-- Property read: first entry with the given key, if any. -/
def recGet {α : Type} : Rec α → String → Option α
  | [], _ => none
  | (k', v) :: rest, k => if k' = k then some v else recGet rest k

/-- Property assignment: update the entry with the given key in place, or
append a new entry at the end (JS object semantics for unique-keyed lists). -/
def recSet {α : Type} : Rec α → String → α → Rec α
  | [], k, v => [(k, v)]
  | (k', v') :: rest, k, v =>
      if k' = k then (k, v) :: rest else (k', v') :: recSet rest k v

/-- The keys of a record, in insertion order. -/
def recKeys {α : Type} (r : Rec α) : List String := r.map Prod.fst

@[simp] theorem recGet_nil {α : Type} (k : String) : recGet ([] : Rec α) k = none := rfl

@[simp] theorem recGet_cons {α : Type} (k' k : String) (v : α) (rest : Rec α) :
    recGet ((k', v) :: rest) k = if k' = k then some v else recGet rest k := rfl

theorem recGet_recSet {α : Type} (r : Rec α) (k k' : String) (v : α) :
    recGet (recSet r k v) k' = if k = k' then some v else recGet r k' := by
  induction r with
  | nil =>
      by_cases h : k = k' <;> simp [recSet, h]
  | cons p rest ih =>
      obtain ⟨k0, v0⟩ := p
      by_cases h0 : k0 = k
      · subst h0
        by_cases h : k0 = k' <;> simp [recSet, h]
      · by_cases h : k = k'
        · subst h
          simp [recSet, h0, ih]
        · have h' : ¬k' = k := fun hh => h hh.symm
          by_cases h1 : k0 = k' <;> simp [recSet, h0, h1, ih, h, h']

@[simp] theorem recKeys_nil {α : Type} : recKeys ([] : Rec α) = [] := rfl

@[simp] theorem recKeys_cons {α : Type} (p : String × α) (r : Rec α) :
    recKeys (p :: r) = p.1 :: recKeys r := rfl

/-! ## Data model (src/types.ts, restricted to the fields the analyzed code reads) -/

/-- A 3-axis vector as read defensively by the extractor (`?.x ?? 0`): each
component may be absent. -/
structure Vec3 where
  x : Option JSNum
  y : Option JSNum
  z : Option JSNum

/-- The `fuzziness` block of a GPS-error record. -/
structure FuzzinessErrors where
  position : Option Vec3
  velocity : Option Vec3
  acceleration : Option Vec3

/-- GPS-error data: position/velocity/acceleration plus fuzziness, every
level optional as the extractor's optional chaining allows. -/
structure GPSErrorData where
  position : Option Vec3
  velocity : Option Vec3
  acceleration : Option Vec3
  fuzziness : Option FuzzinessErrors

/-- A GPS-error file (only the `gpsError` field is read by the predictor). -/
structure GPSErrorFile where
  gpsError : GPSErrorData

/-- Kalman tuning parameters: the 20 optional fields of the TS interface
`KalmanParameters`, including the legacy combined `...XZ` fields. -/
structure KalmanParameters where
  rPosX : Option JSNum := none
  rPosY : Option JSNum := none
  rPosZ : Option JSNum := none
  rPosXZ : Option JSNum := none
  rVelocityX : Option JSNum := none
  rVelocityY : Option JSNum := none
  rVelocityZ : Option JSNum := none
  rVelocityXZ : Option JSNum := none
  qPosX : Option JSNum := none
  qPosY : Option JSNum := none
  qPosZ : Option JSNum := none
  qPosXZ : Option JSNum := none
  qVelocityX : Option JSNum := none
  qVelocityY : Option JSNum := none
  qVelocityZ : Option JSNum := none
  qVelocityXZ : Option JSNum := none
  qAccelerationX : Option JSNum := none
  qAccelerationY : Option JSNum := none
  qAccelerationZ : Option JSNum := none
  qAccelerationXZ : Option JSNum := none

/-- One run of a sweep (fields read by the matrix builder). -/
structure SweepResult where
  runIndex : Nat
  finalParams : KalmanParameters

/-- A sweep summary (fields read by the matrix builder). -/
structure SweepSummary where
  gpsError : GPSErrorData
  allResults : List SweepResult

/-- The `section` header of a section-sweep section. -/
structure SectionHeader where
  name : String

/-- The best result of a section (only `finalParameters` is read). -/
structure SectionBestResult where
  finalParameters : KalmanParameters

/-- One section of a section sweep. `sectionInfo` models the source's
`section` field (a Lean keyword). -/
structure SectionSweepResult where
  sectionInfo : SectionHeader
  gpsErrorProfile : GPSErrorData
  bestResult : SectionBestResult

/-- A section-sweep file (fields read by the matrix builder). -/
structure SectionSweep where
  sections : List SectionSweepResult

/-- A loaded file, discriminated by its `type` tag: only `sweep-summary` and
`section-sweep` files are consumed by the matrix builder, everything else is
ignored. -/
inductive LoadedFile where
  | sweepSummary (name : String) (data : SweepSummary)
  | sectionSweep (name : String) (data : SectionSweep)
  | otherFile (name : String)

/-- One aggregated observation (an element of `allRuns`). -/
structure RunObs where
  gpsErrors : Rec JSNum
  finalParams : Rec JSNum
  label : String

/-- One retained scatter point of a correlation. -/
structure DataPoint where
  x : ℚ
  y : ℚ
  label : String
deriving DecidableEq

/-- A correlation-matrix cell (TS interface `CorrelationResult`). -/
structure CorrelationResult where
  xLabel : String
  yLabel : String
  coefficient : ℝ
  dataPoints : List DataPoint

/-- A fitted prediction model (TS interface `PredictionModel`; the
`coefficients` field is optional there, hence the `Option`). -/
structure PredictionModel where
  inputDimension : String
  outputParameter : String
  modelType : String
  coefficients : Option (List JSNum)
  rSquared : JSNum

/-- The result record of `linearRegression`. -/
structure LinRegResult where
  slope : JSNum
  intercept : JSNum
  rSquared : JSNum
deriving DecidableEq

/-! ## FileParser extraction helpers (src/parser.ts) -/

/-- Evaluate `base?.sel ?? 0` for one component of a nested vector. -/
def oget (o : Option Vec3) (sel : Vec3 → Option JSNum) : JSNum :=
  (o.bind sel).getD (JSNum.fin 0)

/-- FileParser.extractGPSErrorDimensions: the fixed 18-dimensional GPS-error
vector, each component independently defaulted to 0 when absent. -/
def extractGPSErrorDimensions (g : GPSErrorData) : Rec JSNum :=
  let d : Rec JSNum := []
  let d := recSet d "position.x" (oget g.position Vec3.x)
  let d := recSet d "position.y" (oget g.position Vec3.y)
  let d := recSet d "position.z" (oget g.position Vec3.z)
  let d := recSet d "velocity.x" (oget g.velocity Vec3.x)
  let d := recSet d "velocity.y" (oget g.velocity Vec3.y)
  let d := recSet d "velocity.z" (oget g.velocity Vec3.z)
  let d := recSet d "acceleration.x" (oget g.acceleration Vec3.x)
  let d := recSet d "acceleration.y" (oget g.acceleration Vec3.y)
  let d := recSet d "acceleration.z" (oget g.acceleration Vec3.z)
  let d := recSet d "fuzziness.position.x" (oget (g.fuzziness.bind FuzzinessErrors.position) Vec3.x)
  let d := recSet d "fuzziness.position.y" (oget (g.fuzziness.bind FuzzinessErrors.position) Vec3.y)
  let d := recSet d "fuzziness.position.z" (oget (g.fuzziness.bind FuzzinessErrors.position) Vec3.z)
  let d := recSet d "fuzziness.velocity.x" (oget (g.fuzziness.bind FuzzinessErrors.velocity) Vec3.x)
  let d := recSet d "fuzziness.velocity.y" (oget (g.fuzziness.bind FuzzinessErrors.velocity) Vec3.y)
  let d := recSet d "fuzziness.velocity.z" (oget (g.fuzziness.bind FuzzinessErrors.velocity) Vec3.z)
  let d := recSet d "fuzziness.acceleration.x" (oget (g.fuzziness.bind FuzzinessErrors.acceleration) Vec3.x)
  let d := recSet d "fuzziness.acceleration.y" (oget (g.fuzziness.bind FuzzinessErrors.acceleration) Vec3.y)
  let d := recSet d "fuzziness.acceleration.z" (oget (g.fuzziness.bind FuzzinessErrors.acceleration) Vec3.z)
  d

/-- Conditional assignment `if (params.k !== undefined) extracted[k] = params.k`. -/
def setOpt (e : Rec JSNum) (k : String) (o : Option JSNum) : Rec JSNum :=
  match o with
  | some v => recSet e k v
  | none => e

/-- The legacy branch: `if (params.kXZ !== undefined) { extracted[kX] = v; extracted[kZ] = v }`. -/
def setOptXZ (e : Rec JSNum) (kx kz : String) (o : Option JSNum) : Rec JSNum :=
  match o with
  | some v => recSet (recSet e kx v) kz v
  | none => e

/-- FileParser.extractFinalParameters: copy the per-axis parameters that are
present, then (per family) expand a present legacy `...XZ` value into the X
and Z entries, in the exact source order. -/
def extractFinalParameters (p : KalmanParameters) : Rec JSNum :=
  let e : Rec JSNum := []
  let e := setOpt e "rPosX" p.rPosX
  let e := setOpt e "rPosY" p.rPosY
  let e := setOpt e "rPosZ" p.rPosZ
  let e := setOptXZ e "rPosX" "rPosZ" p.rPosXZ
  let e := setOpt e "rVelocityX" p.rVelocityX
  let e := setOpt e "rVelocityY" p.rVelocityY
  let e := setOpt e "rVelocityZ" p.rVelocityZ
  let e := setOptXZ e "rVelocityX" "rVelocityZ" p.rVelocityXZ
  let e := setOpt e "qPosX" p.qPosX
  let e := setOpt e "qPosY" p.qPosY
  let e := setOpt e "qPosZ" p.qPosZ
  let e := setOptXZ e "qPosX" "qPosZ" p.qPosXZ
  let e := setOpt e "qVelocityX" p.qVelocityX
  let e := setOpt e "qVelocityY" p.qVelocityY
  let e := setOpt e "qVelocityZ" p.qVelocityZ
  let e := setOptXZ e "qVelocityX" "qVelocityZ" p.qVelocityXZ
  let e := setOpt e "qAccelerationX" p.qAccelerationX
  let e := setOpt e "qAccelerationY" p.qAccelerationY
  let e := setOpt e "qAccelerationZ" p.qAccelerationZ
  let e := setOptXZ e "qAccelerationX" "qAccelerationZ" p.qAccelerationXZ
  e

/-! ## CorrelationAnalyzer (src/correlation.ts) -/

/-- CorrelationAnalyzer.calculateCorrelation: Pearson r via the
sum-of-products formula, returning 0 on mismatched lengths, empty input, or
a zero denominator. -/
noncomputable def calculateCorrelation (xValues yValues : List ℚ) : ℝ :=
  if xValues.length ≠ yValues.length ∨ xValues.length = 0 then 0
  else
    let n : ℚ := xValues.length
    let sumX := xValues.sum
    let sumY := yValues.sum
    let sumXY := ((xValues.zip yValues).map fun p => p.1 * p.2).sum
    let sumX2 := (xValues.map fun x => x * x).sum
    let sumY2 := (yValues.map fun y => y * y).sum
    let numerator := n * sumXY - sumX * sumY
    let denominator :=
      Real.sqrt (((n * sumX2 - sumX * sumX) * (n * sumY2 - sumY * sumY) : ℚ) : ℝ)
    if denominator = 0 then 0 else (numerator : ℝ) / denominator

/-- The observations contributed by one loaded file (the body of the
`sweepFiles.forEach` aggregation loop in buildCorrelationMatrix). -/
def runsOfFile : LoadedFile → List RunObs
  | .sweepSummary name sw =>
      sw.allResults.map fun result =>
        { gpsErrors := extractGPSErrorDimensions sw.gpsError
          finalParams := extractFinalParameters result.finalParams
          label := name ++ " - Run " ++ toString result.runIndex }
  | .sectionSweep name ss =>
      ss.sections.map fun s =>
        { gpsErrors := extractGPSErrorDimensions s.gpsErrorProfile
          finalParams := extractFinalParameters s.bestResult.finalParameters
          label := name ++ " - " ++ s.sectionInfo.name }
  | .otherFile _ => []

/-- The aggregated `allRuns` list of buildCorrelationMatrix. -/
def allRunsOf (sweepFiles : List LoadedFile) : List RunObs :=
  sweepFiles.flatMap runsOfFile

/-- A defined, non-NaN, finite JS value, as a rational. -/
def finVal : Option JSNum → Option ℚ
  | some (JSNum.fin q) => some q
  | _ => none

/-- The filtered value-pair list for one (dimension, parameter) cell: the
runs where both values exist and are finite, in run order. -/
def validPairs (allRuns : List RunObs) (errorDim param : String) : List DataPoint :=
  allRuns.filterMap fun run =>
    match finVal (recGet run.gpsErrors errorDim), finVal (recGet run.finalParams param) with
    | some xq, some yq => some ⟨xq, yq, run.label⟩
    | _, _ => none

/-- The matrix-filling phase of CorrelationAnalyzer.buildCorrelationMatrix,
operating on the aggregated run list. -/
noncomputable def buildMatrixFromRuns (allRuns : List RunObs) : Rec (Rec CorrelationResult) :=
  match allRuns with
  | [] => []
  | firstRun :: _ =>
    let gpsErrorDimensions := recKeys firstRun.gpsErrors
    let parameterNames := recKeys firstRun.finalParams
    gpsErrorDimensions.map fun errorDim =>
      (errorDim, parameterNames.map fun param =>
        let dataPoints := validPairs allRuns errorDim param
        (param,
          { xLabel := errorDim
            yLabel := param
            coefficient :=
              calculateCorrelation (dataPoints.map DataPoint.x) (dataPoints.map DataPoint.y)
            dataPoints := dataPoints }))

/-- CorrelationAnalyzer.buildCorrelationMatrix: aggregate the runs of every
sweep-summary / section-sweep file, then fill the matrix. -/
noncomputable def buildCorrelationMatrix (sweepFiles : List LoadedFile) : Rec (Rec CorrelationResult) :=
  buildMatrixFromRuns (allRunsOf sweepFiles)

/-- CorrelationAnalyzer.findStrongestCorrelations: collect every stored
result meeting the threshold, then sort by absolute coefficient descending
(`Array.prototype.sort` is stable, hence `List.insertionSort`). -/
noncomputable def findStrongestCorrelations (matrix : Rec (Rec CorrelationResult))
    (threshold : ℝ) : List CorrelationResult :=
  let strong := (matrix.flatMap fun pr => pr.2.map Prod.snd).filter
    fun result => decide (threshold ≤ |result.coefficient|)
  strong.insertionSort fun a b => |b.coefficient| ≤ |a.coefficient|

/-- CorrelationAnalyzer.linearRegression: ordinary least squares with the
guard returning the zero struct, in exact JS-number arithmetic (no guard
against a zero slope denominator or a zero ssTotal). -/
def linearRegression (xValues yValues : List ℚ) : LinRegResult :=
  if xValues.length ≠ yValues.length ∨ xValues.length < 2 then
    ⟨JSNum.fin 0, JSNum.fin 0, JSNum.fin 0⟩
  else
    let n : ℚ := xValues.length
    let sumX := xValues.sum
    let sumY := yValues.sum
    let sumXY := ((xValues.zip yValues).map fun p => p.1 * p.2).sum
    let sumX2 := (xValues.map fun x => x * x).sum
    let slope := JSNum.div (JSNum.fin (n * sumXY - sumX * sumY)) (JSNum.fin (n * sumX2 - sumX * sumX))
    let intercept := JSNum.div (JSNum.sub (JSNum.fin sumY) (JSNum.mul slope (JSNum.fin sumX))) (JSNum.fin n)
    let yMean := sumY / n
    let ssTotal := (yValues.map fun y => (y - yMean) * (y - yMean)).sum
    let ssResidual := (yValues.zip xValues).foldl
      (fun s p =>
        JSNum.add s
          (JSNum.mul (JSNum.sub (JSNum.fin p.1) (JSNum.add (JSNum.mul slope (JSNum.fin p.2)) intercept))
            (JSNum.sub (JSNum.fin p.1) (JSNum.add (JSNum.mul slope (JSNum.fin p.2)) intercept))))
      (JSNum.fin 0)
    let rSquared := JSNum.sub (JSNum.fin 1) (JSNum.div ssResidual (JSNum.fin ssTotal))
    ⟨slope, intercept, rSquared⟩

/-- CorrelationAnalyzer.buildPredictionModel: fit a linear model over a
correlation's retained data points. -/
def buildPredictionModel (correlation : CorrelationResult) : PredictionModel :=
  let xValues := correlation.dataPoints.map DataPoint.x
  let yValues := correlation.dataPoints.map DataPoint.y
  let regression := linearRegression xValues yValues
  { inputDimension := correlation.xLabel
    outputParameter := correlation.yLabel
    modelType := "linear"
    coefficients := some [regression.intercept, regression.slope]
    rSquared := regression.rSquared }

/-- The body of the `models.forEach` loop of
CorrelationAnalyzer.predictParameters: skip when the input dimension is
absent, the coefficients are absent or short, or the quality gate fails;
otherwise write `coefficients[0] + coefficients[1] * inputValue`. -/
def applyModel (gpsErrorDims : Rec JSNum) (predictions : Rec JSNum)
    (model : PredictionModel) : Rec JSNum :=
  match recGet gpsErrorDims model.inputDimension, model.coefficients with
  | some inputValue, some cs =>
      if 2 ≤ cs.length then
        if JSNum.gt model.rSquared (JSNum.fin (3/10)) then
          recSet predictions model.outputParameter
            (JSNum.add (cs.getD 0 (JSNum.fin 0)) (JSNum.mul (cs.getD 1 (JSNum.fin 0)) inputValue))
        else predictions
      else predictions
  | _, _ => predictions

/-- CorrelationAnalyzer.predictParameters. -/
def predictParameters (gpsError : GPSErrorFile) (models : List PredictionModel) : Rec JSNum :=
  models.foldl (applyModel (extractGPSErrorDimensions gpsError.gpsError)) []

/-! ## Record-update lemmas for the extraction functions -/

theorem recGet_setOpt (e : Rec JSNum) (k : String) (o : Option JSNum) (k' : String) :
    recGet (setOpt e k o) k' = if k = k' then o.or (recGet e k') else recGet e k' := by
  cases o with
  | none => simp [setOpt]
  | some v => simp [setOpt, recGet_recSet]

theorem recGet_setOptXZ (e : Rec JSNum) (kx kz : String) (o : Option JSNum) (k' : String) :
    recGet (setOptXZ e kx kz o) k' =
      if kz = k' then o.or (recGet e k')
      else if kx = k' then o.or (recGet e k')
      else recGet e k' := by
  cases o with
  | none => simp [setOptXZ]
  | some v =>
      by_cases hz : kz = k' <;> by_cases hx : kx = k' <;>
        simp [setOptXZ, recGet_recSet, hz, hx]

/-- C1 counterexample input: both the per-axis `rPosX` and the legacy
combined `rPosXZ` are supplied, with different values. -/
def cexParams : KalmanParameters :=
  { rPosX := some (JSNum.fin 1), rPosXZ := some (JSNum.fin 2) }

/-- C1: the claim that per-axis values take precedence is false on the code.
With `rPosX = 1` and `rPosXZ = 2` both present, the extracted output vector
holds the legacy value 2 at `rPosX`, not the per-axis value 1, because the
legacy branch is processed after the per-axis branch. -/
theorem extractFinalParameters_perAxis_precedence_false :
    cexParams.rPosX = some (JSNum.fin 1) ∧ cexParams.rPosXZ = some (JSNum.fin 2) ∧
    recGet (extractFinalParameters cexParams) "rPosX" = some (JSNum.fin 2) ∧
    recGet (extractFinalParameters cexParams) "rPosX" ≠ some (JSNum.fin 1) := by
  refine ⟨rfl, rfl, rfl, ?_⟩
  decide

/-- C1 (amended): in output-vector extraction, for every parameter family
handled by the code, the legacy combined `...XZ` value takes precedence over
the per-axis X/Z values when both are present (the legacy branch is
processed last); when only the legacy value is present, both the X and the Z
entries receive it; when the legacy value is absent, the per-axis values
(when present) are used; Y entries always come from the per-axis Y value. -/
theorem extractFinalParameters_legacy_precedence (p : KalmanParameters) :
    recGet (extractFinalParameters p) "rPosX" = p.rPosXZ.or p.rPosX ∧
    recGet (extractFinalParameters p) "rPosY" = p.rPosY ∧
    recGet (extractFinalParameters p) "rPosZ" = p.rPosXZ.or p.rPosZ ∧
    recGet (extractFinalParameters p) "rVelocityX" = p.rVelocityXZ.or p.rVelocityX ∧
    recGet (extractFinalParameters p) "rVelocityY" = p.rVelocityY ∧
    recGet (extractFinalParameters p) "rVelocityZ" = p.rVelocityXZ.or p.rVelocityZ ∧
    recGet (extractFinalParameters p) "qPosX" = p.qPosXZ.or p.qPosX ∧
    recGet (extractFinalParameters p) "qPosY" = p.qPosY ∧
    recGet (extractFinalParameters p) "qPosZ" = p.qPosXZ.or p.qPosZ ∧
    recGet (extractFinalParameters p) "qVelocityX" = p.qVelocityXZ.or p.qVelocityX ∧
    recGet (extractFinalParameters p) "qVelocityY" = p.qVelocityY ∧
    recGet (extractFinalParameters p) "qVelocityZ" = p.qVelocityXZ.or p.qVelocityZ ∧
    recGet (extractFinalParameters p) "qAccelerationX" = p.qAccelerationXZ.or p.qAccelerationX ∧
    recGet (extractFinalParameters p) "qAccelerationY" = p.qAccelerationY ∧
    recGet (extractFinalParameters p) "qAccelerationZ" = p.qAccelerationXZ.or p.qAccelerationZ := by
  refine ⟨?_, ?_, ?_, ?_, ?_, ?_, ?_, ?_, ?_, ?_, ?_, ?_, ?_, ?_, ?_⟩ <;>
    simp [extractFinalParameters, recGet_setOpt, recGet_setOptXZ]

/-- C8: linearRegression on mismatched-length inputs or on fewer than two
points returns the zero struct `{slope: 0, intercept: 0, rSquared: 0}`
(total function, no error). -/
theorem linearRegression_guard_zero_struct (xValues yValues : List ℚ)
    (h : xValues.length ≠ yValues.length ∨ xValues.length < 2) :
    linearRegression xValues yValues = ⟨JSNum.fin 0, JSNum.fin 0, JSNum.fin 0⟩ := by
  rw [linearRegression, if_pos h]

/-- C8 witness: a single point triggers the guard. -/
theorem linearRegression_guard_zero_struct_witness :
    (([1] : List ℚ).length ≠ ([2] : List ℚ).length ∨ ([1] : List ℚ).length < 2) ∧
    linearRegression [1] [2] = ⟨JSNum.fin 0, JSNum.fin 0, JSNum.fin 0⟩ :=
  ⟨Or.inr (by decide), linearRegression_guard_zero_struct [1] [2] (Or.inr (by decide))⟩

/-- C9: a file collection that yields zero observations produces the empty
correlation matrix; matrix construction is a total function, so no
exception can propagate for any input shape, including the empty one. -/
theorem buildCorrelationMatrix_empty (sweepFiles : List LoadedFile)
    (h : allRunsOf sweepFiles = []) : buildCorrelationMatrix sweepFiles = [] := by
  rw [buildCorrelationMatrix, h, buildMatrixFromRuns]

/-- C9 witness: a collection holding one unrecognized file yields zero
observations and an empty matrix; so does the empty collection. -/
theorem buildCorrelationMatrix_empty_witness :
    allRunsOf [LoadedFile.otherFile "notes"] = [] ∧
    buildCorrelationMatrix [LoadedFile.otherFile "notes"] = [] ∧
    buildCorrelationMatrix [] = [] :=
  ⟨rfl, buildCorrelationMatrix_empty [LoadedFile.otherFile "notes"] rfl,
    buildCorrelationMatrix_empty [] rfl⟩

/-- C6: for a non-empty observation list, the matrix keys are exactly the
first observation's input dimensions, and every input dimension maps to an
inner record whose keys are exactly the first observation's output
parameter keys. -/
theorem buildMatrixFromRuns_key_invariant (firstRun : RunObs) (rest : List RunObs) :
    recKeys (buildMatrixFromRuns (firstRun :: rest)) = recKeys firstRun.gpsErrors ∧
    (buildMatrixFromRuns (firstRun :: rest)).map (fun pr => recKeys pr.2) =
      (recKeys firstRun.gpsErrors).map (fun _ => recKeys firstRun.finalParams) := by
  constructor
  · simp [buildMatrixFromRuns, recKeys, List.map_map, Function.comp]
  · simp [buildMatrixFromRuns, recKeys, List.map_map, Function.comp]

/-! ## Predictor characterization -/

/-- Whether a model clears the predictor's three entry conditions: its input
dimension is present, it has at least two coefficients, and its R-squared
exceeds the 0.3 quality gate. -/
def modelQualifies (gpsErrorDims : Rec JSNum) (m : PredictionModel) : Bool :=
  (recGet gpsErrorDims m.inputDimension).isSome &&
    (match m.coefficients with
      | some cs => decide (2 ≤ cs.length)
      | none => false) &&
    JSNum.gt m.rSquared (JSNum.fin (3/10))

/-- The value `coefficients[0] + coefficients[1] * inputValue` a model would
write (the defaults are irrelevant for qualifying models). -/
def modelPrediction (gpsErrorDims : Rec JSNum) (m : PredictionModel) : JSNum :=
  JSNum.add ((m.coefficients.getD []).getD 0 (JSNum.fin 0))
    (JSNum.mul ((m.coefficients.getD []).getD 1 (JSNum.fin 0))
      ((recGet gpsErrorDims m.inputDimension).getD (JSNum.fin 0)))

theorem recGet_applyModel (gpsErrorDims acc : Rec JSNum) (m : PredictionModel) (param : String) :
    recGet (applyModel gpsErrorDims acc m) param =
      if decide (m.outputParameter = param) && modelQualifies gpsErrorDims m then
        some (modelPrediction gpsErrorDims m)
      else recGet acc param := by
  rcases hdim : recGet gpsErrorDims m.inputDimension with _ | x <;>
    rcases hcs : m.coefficients with _ | cs <;>
      simp [applyModel, modelQualifies, modelPrediction, hdim, hcs]
  by_cases hlen : 2 ≤ cs.length
  · by_cases hgt : JSNum.gt m.rSquared (JSNum.fin (3/10)) = true
    · by_cases hout : m.outputParameter = param <;>
        simp [hlen, hgt, hout, recGet_recSet]
    · simp [hlen, Bool.eq_false_iff.mp (Bool.not_eq_true _ ▸ hgt), hgt]
  · simp [hlen]

theorem predict_foldl_lookup (gpsErrorDims : Rec JSNum) (models : List PredictionModel)
    (acc : Rec JSNum) (param : String) :
    recGet (models.foldl (applyModel gpsErrorDims) acc) param =
      match models.reverse.find?
          (fun m => decide (m.outputParameter = param) && modelQualifies gpsErrorDims m) with
      | some m => some (modelPrediction gpsErrorDims m)
      | none => recGet acc param := by
  induction models generalizing acc with
  | nil => simp
  | cons m rest ih =>
      rw [List.foldl_cons, ih, List.reverse_cons, List.find?_append]
      rcases hfind : rest.reverse.find?
          (fun m => decide (m.outputParameter = param) && modelQualifies gpsErrorDims m) with _ | m'
      · simp only [hfind, Option.none_or]
        rw [recGet_applyModel]
        by_cases hm : (decide (m.outputParameter = param) && modelQualifies gpsErrorDims m) = true
        · rw [if_pos hm]
          simp [List.find?, hm]
        · rw [if_neg hm]
          rw [Bool.not_eq_true] at hm
          simp [List.find?, hm]
      · simp [hfind]

/-- A GPS-error file with every nested field absent: the extracted input
vector holds all 18 dimensions, each defaulted to 0. -/
def emptyGPS : GPSErrorFile := ⟨⟨none, none, none, none⟩⟩

/-- C3 counterexample model: input dimension present, rSquared above the
gate, but an empty coefficients array. -/
def cexModel : PredictionModel :=
  ⟨"position.x", "p", "linear", some [], JSNum.fin (1/2)⟩

/-- C3: the claimed "if and only if" fails on the code. For a model whose
input dimension is present and whose rSquared exceeds 0.3 but whose
coefficients array has fewer than 2 entries, predict emits no entry. -/
theorem predictParameters_iff_false_cex :
    (recGet (extractGPSErrorDimensions emptyGPS.gpsError) "position.x").isSome = true ∧
    JSNum.gt cexModel.rSquared (JSNum.fin (3/10)) = true ∧
    recGet (predictParameters emptyGPS [cexModel]) "p" = none := by
  refine ⟨rfl, ?_, rfl⟩
  norm_num [cexModel, JSNum.gt]

/-- C3 (amended): predict emits an entry for an output parameter if and only
if some model with that output parameter has its input dimension present in
the input vector, has at least two coefficients, and has rSquared strictly
greater than 0.3; the entry's value is
`coefficients[0] + coefficients[1] * inputValue` computed from the last such
model in the sequence (later models overwrite earlier ones). -/
theorem predictParameters_lookup_characterization (gpsError : GPSErrorFile)
    (models : List PredictionModel) (param : String) :
    recGet (predictParameters gpsError models) param =
      (models.reverse.find? fun m =>
          decide (m.outputParameter = param) &&
            modelQualifies (extractGPSErrorDimensions gpsError.gpsError) m).map
        (modelPrediction (extractGPSErrorDimensions gpsError.gpsError)) := by
  rw [predictParameters, predict_foldl_lookup]
  rcases hfind : models.reverse.find? (fun m =>
      decide (m.outputParameter = param) &&
        modelQualifies (extractGPSErrorDimensions gpsError.gpsError) m) with _ | m'
  · simp [hfind]
  · simp [hfind]

/-- C10: predict produces no entry for a model whose coefficients are absent
or shorter than two entries, even when its rSquared exceeds 0.3 and its
input dimension is present. -/
theorem predictParameters_short_coefficients_none (gpsError : GPSErrorFile)
    (m : PredictionModel)
    (hm : m.coefficients = none ∨ (m.coefficients.getD []).length < 2)
    (param : String) : recGet (predictParameters gpsError [m]) param = none := by
  rw [predictParameters, List.foldl_cons, List.foldl_nil, recGet_applyModel]
  have hq : modelQualifies (extractGPSErrorDimensions gpsError.gpsError) m = false := by
    rcases hm with hnone | hshort
    · simp [modelQualifies, hnone]
    · rcases hcs : m.coefficients with _ | cs
      · simp [modelQualifies, hcs]
      · rw [hcs] at hshort
        simp only [Option.getD_some] at hshort
        simp [modelQualifies, hcs, Nat.not_le.mpr hshort]
  simp [hq]

/-- C10 witness: a model with absent coefficients, rSquared 1 and a present
input dimension produces no entry. -/
theorem predictParameters_short_coefficients_none_witness :
    ((⟨"position.x", "p", "linear", none, JSNum.fin 1⟩ : PredictionModel).coefficients = none ∨
      (((⟨"position.x", "p", "linear", none, JSNum.fin 1⟩ : PredictionModel).coefficients.getD []).length < 2)) ∧
    recGet (predictParameters emptyGPS [⟨"position.x", "p", "linear", none, JSNum.fin 1⟩]) "p" = none :=
  ⟨Or.inl rfl,
    predictParameters_short_coefficients_none emptyGPS
      ⟨"position.x", "p", "linear", none, JSNum.fin 1⟩ (Or.inl rfl) "p"⟩

/-- Summing finite JS numbers with a reduce loop stays finite. -/
theorem foldl_add_isFin {α : Type} (g : α → JSNum) (l : List α) (q : ℚ)
    (hg : ∀ a ∈ l, (g a).isFin = true) :
    ∃ c, l.foldl (fun s a => JSNum.add s (g a)) (JSNum.fin q) = JSNum.fin c := by
  induction l generalizing q with
  | nil => exact ⟨q, rfl⟩
  | cons a l ih =>
      have ha : (g a).isFin = true := hg a (List.mem_cons_self a l)
      rcases hga : g a with b | _ | _ | _ <;> rw [hga] at ha <;> try simp [JSNum.isFin] at ha
      rw [List.foldl_cons, hga, JSNum.add_fin]
      exact ih (q + b) fun x hx => hg x (List.mem_cons_of_mem a hx)

/-- C2: the claim is false on the code. On equal-length inputs of length 2
with a constant x sequence, the slope denominator `n*Σx² − (Σx)²` is 0 and
its numerator is 0 too, so the slope is NaN (0/0), and the intercept and
rSquared are NaN as well — not finite numbers. -/
theorem linearRegression_slope_nan_cex :
    linearRegression [1, 1] [0, 1] = ⟨JSNum.nan, JSNum.nan, JSNum.nan⟩ ∧
    (linearRegression [1, 1] [0, 1]).slope.isFin = false := by
  have h : linearRegression [1, 1] [0, 1] = ⟨JSNum.nan, JSNum.nan, JSNum.nan⟩ := by
    norm_num [linearRegression, JSNum.div, JSNum.sub, JSNum.add, JSNum.mul, JSNum.neg,
      List.zip, List.zipWith]
  exact ⟨h, by rw [h]; rfl⟩

/-- C2 (amended): for equal-length inputs with at least 2 points whose x
sequence has nonzero variance (`n*Σx² − (Σx)² ≠ 0`), the slope and the
intercept are finite numbers, and rSquared is finite exactly when the total
variance of y is nonzero — so rSquared is the only component that can be
non-finite, and only when SStotal is 0. -/
theorem linearRegression_finite_characterization (xValues yValues : List ℚ)
    (hlen : xValues.length = yValues.length) (h2 : 2 ≤ xValues.length)
    (hvar : (xValues.length : ℚ) * (xValues.map fun x => x * x).sum - xValues.sum * xValues.sum ≠ 0) :
    (linearRegression xValues yValues).slope.isFin = true ∧
    (linearRegression xValues yValues).intercept.isFin = true ∧
    ((linearRegression xValues yValues).rSquared.isFin = true ↔
      (yValues.map fun y =>
        (y - yValues.sum / (xValues.length : ℚ)) * (y - yValues.sum / (xValues.length : ℚ))).sum ≠ 0) := by
  have hguard : ¬(xValues.length ≠ yValues.length ∨ xValues.length < 2) := by
    push_neg
    exact ⟨hlen, by omega⟩
  have hn : ((xValues.length : ℚ)) ≠ 0 := by
    have h0 : xValues.length ≠ 0 := by omega
    exact_mod_cast h0
  rw [linearRegression, if_neg hguard]
  set n : ℚ := (xValues.length : ℚ) with hn_def
  set sumX := xValues.sum with hsx
  set sumY := yValues.sum with hsy
  set sumXY := ((xValues.zip yValues).map fun p => p.1 * p.2).sum with hsxy
  set sumX2 := (xValues.map fun x => x * x).sum with hsx2
  have hslope : JSNum.div (JSNum.fin (n * sumXY - sumX * sumY)) (JSNum.fin (n * sumX2 - sumX * sumX)) =
      JSNum.fin ((n * sumXY - sumX * sumY) / (n * sumX2 - sumX * sumX)) :=
    JSNum.div_fin_of_ne hvar
  refine ⟨?_, ?_, ?_⟩
  · simp only [hslope]
    rfl
  · simp only [hslope, JSNum.mul_fin, JSNum.sub_fin, JSNum.div_fin_of_ne hn]
    rfl
  · simp only [hslope, JSNum.mul_fin, JSNum.sub_fin, JSNum.add_fin, JSNum.div_fin_of_ne hn]
    obtain ⟨c, hc⟩ := foldl_add_isFin
      (fun p : ℚ × ℚ =>
        JSNum.fin ((p.1 - ((n * sumXY - sumX * sumY) / (n * sumX2 - sumX * sumX) * p.2 +
          (sumY - (n * sumXY - sumX * sumY) / (n * sumX2 - sumX * sumX) * sumX) / n)) *
          (p.1 - ((n * sumXY - sumX * sumY) / (n * sumX2 - sumX * sumX) * p.2 +
          (sumY - (n * sumXY - sumX * sumY) / (n * sumX2 - sumX * sumX) * sumX) / n))))
      (yValues.zip xValues) 0 (by intro a _; rfl)
    rw [hc]
    set ssTotal := (List.map (fun y => (y - sumY / n) * (y - sumY / n)) yValues).sum with hsst
    by_cases hss : ssTotal = 0
    · rw [hss]
      constructor
      · intro hfin
        have hdiv := JSNum.div_fin_zero_not_isFin c
        have hsub := JSNum.sub_not_isFin 1 hdiv
        rw [hfin] at hsub
        exact Bool.noConfusion hsub
      · intro hne
        exact absurd rfl hne
    · rw [JSNum.div_fin_of_ne hss, JSNum.sub_fin]
      simp [hss]

/-- C2 witness: on x = [0,1], y = [0,1] the x variance is nonzero, slope and
intercept are finite, and SStotal is nonzero so rSquared is finite too. -/
theorem linearRegression_finite_characterization_witness :
    (linearRegression [0, 1] [0, 1]).slope.isFin = true ∧
    (linearRegression [0, 1] [0, 1]).intercept.isFin = true ∧
    ((linearRegression [0, 1] [0, 1]).rSquared.isFin = true ↔
      (([0, 1] : List ℚ).map fun y =>
        (y - ([0, 1] : List ℚ).sum / (([0, 1] : List ℚ).length : ℚ)) *
          (y - ([0, 1] : List ℚ).sum / (([0, 1] : List ℚ).length : ℚ))).sum ≠ 0) :=
  linearRegression_finite_characterization [0, 1] [0, 1] rfl (by decide) (by norm_num)

/-! ## List sums as indexed Finset sums, and the Cauchy-Schwarz bound -/

theorem list_sum_eq_range (l : List ℚ) :
    l.sum = ∑ i ∈ Finset.range l.length, l.getD i 0 := by
  induction l with
  | nil => simp
  | cons a l ih =>
      rw [List.sum_cons, List.length_cons, Finset.sum_range_succ']
      simp [ih, add_comm]

theorem list_map_sum_eq_range (f : ℚ → ℚ) (l : List ℚ) :
    (l.map f).sum = ∑ i ∈ Finset.range l.length, f (l.getD i 0) := by
  induction l with
  | nil => simp
  | cons a l ih =>
      rw [List.map_cons, List.sum_cons, List.length_cons, Finset.sum_range_succ']
      simp [ih, add_comm]

theorem list_zip_sum_eq_range (f : ℚ → ℚ → ℚ) (xs ys : List ℚ) (h : xs.length = ys.length) :
    ((xs.zip ys).map fun p => f p.1 p.2).sum =
      ∑ i ∈ Finset.range xs.length, f (xs.getD i 0) (ys.getD i 0) := by
  induction xs generalizing ys with
  | nil => simp
  | cons a xs ih =>
      cases ys with
      | nil => simp at h
      | cons b ys =>
          have h' : xs.length = ys.length := by simpa using h
          rw [List.zip_cons_cons, List.map_cons, List.sum_cons, List.length_cons,
            Finset.sum_range_succ']
          simp [ih ys h', add_comm]

/-- The sum-of-products Pearson numerator squared is bounded by the product
of the two variance factors (Cauchy-Schwarz on the centered sequences,
cleared of denominators). -/
theorem pearson_numerator_sq_le (N : ℕ) (X Y : ℕ → ℚ) (hN : N ≠ 0)
    (Sx Sy Sxy Sx2 Sy2 : ℚ)
    (hSx : Sx = ∑ i ∈ Finset.range N, X i)
    (hSy : Sy = ∑ i ∈ Finset.range N, Y i)
    (hSxy : Sxy = ∑ i ∈ Finset.range N, X i * Y i)
    (hSx2 : Sx2 = ∑ i ∈ Finset.range N, X i * X i)
    (hSy2 : Sy2 = ∑ i ∈ Finset.range N, Y i * Y i) :
    ((N : ℚ) * Sxy - Sx * Sy) ^ 2 ≤
      ((N : ℚ) * Sx2 - Sx * Sx) * ((N : ℚ) * Sy2 - Sy * Sy) := by
  set n : ℚ := (N : ℚ) with hn_def
  have hn : n ≠ 0 := by
    simp only [hn_def, ne_eq, Nat.cast_eq_zero]
    exact hN
  have expand : ∀ (S T : ℚ) (F G : ℕ → ℚ),
      (∑ i ∈ Finset.range N, (n * F i - S) * (n * G i - T)) =
        n ^ 2 * (∑ i ∈ Finset.range N, F i * G i) -
          n * T * (∑ i ∈ Finset.range N, F i) -
          n * S * (∑ i ∈ Finset.range N, G i) + (N : ℚ) * (S * T) := by
    intro S T F G
    have hterm : ∀ i ∈ Finset.range N, (n * F i - S) * (n * G i - T) =
        n ^ 2 * (F i * G i) - n * T * F i - n * S * G i + S * T := by
      intro i _
      ring
    rw [Finset.sum_congr rfl hterm]
    rw [Finset.sum_add_distrib, Finset.sum_sub_distrib, Finset.sum_sub_distrib,
      ← Finset.mul_sum, ← Finset.mul_sum, ← Finset.mul_sum,
      Finset.sum_const, Finset.card_range, nsmul_eq_mul]
  have h1 : (∑ i ∈ Finset.range N, (n * X i - Sx) * (n * Y i - Sy)) =
      n * (n * Sxy - Sx * Sy) := by
    rw [expand Sx Sy X Y, ← hSx, ← hSy, ← hSxy, ← hn_def]
    ring
  have h2 : (∑ i ∈ Finset.range N, (n * X i - Sx) ^ 2) =
      n * (n * Sx2 - Sx * Sx) := by
    have hx := expand Sx Sx X X
    rw [← hSx, ← hSx2, ← hn_def] at hx
    calc (∑ i ∈ Finset.range N, (n * X i - Sx) ^ 2)
        = ∑ i ∈ Finset.range N, (n * X i - Sx) * (n * X i - Sx) := by
          refine Finset.sum_congr rfl fun i _ => ?_
          ring
      _ = n * (n * Sx2 - Sx * Sx) := by rw [hx]; ring
  have h3 : (∑ i ∈ Finset.range N, (n * Y i - Sy) ^ 2) =
      n * (n * Sy2 - Sy * Sy) := by
    have hy := expand Sy Sy Y Y
    rw [← hSy, ← hSy2, ← hn_def] at hy
    calc (∑ i ∈ Finset.range N, (n * Y i - Sy) ^ 2)
        = ∑ i ∈ Finset.range N, (n * Y i - Sy) * (n * Y i - Sy) := by
          refine Finset.sum_congr rfl fun i _ => ?_
          ring
      _ = n * (n * Sy2 - Sy * Sy) := by rw [hy]; ring
  have hcs := Finset.sum_mul_sq_le_sq_mul_sq (Finset.range N)
    (fun i => n * X i - Sx) (fun i => n * Y i - Sy)
  rw [h1, h2, h3] at hcs
  have hn2 : (0 : ℚ) < n ^ 2 := by positivity
  have hcs' : n ^ 2 * ((n * Sxy - Sx * Sy) ^ 2) ≤
      n ^ 2 * (((n * Sx2 - Sx * Sx)) * ((n * Sy2 - Sy * Sy))) := by
    calc n ^ 2 * ((n * Sxy - Sx * Sy) ^ 2) = (n * (n * Sxy - Sx * Sy)) ^ 2 := by ring
      _ ≤ (n * (n * Sx2 - Sx * Sx)) * (n * (n * Sy2 - Sy * Sy)) := hcs
      _ = n ^ 2 * (((n * Sx2 - Sx * Sx)) * ((n * Sy2 - Sy * Sy))) := by ring
  exact le_of_mul_le_mul_left hcs' hn2

/-- The Pearson coefficient computed by the embedded source function always
lies in [-1, 1]: the guarded branches return 0 and the division branch is
bounded by Cauchy-Schwarz. -/
theorem abs_calculateCorrelation_le_one (xValues yValues : List ℚ) :
    |calculateCorrelation xValues yValues| ≤ 1 := by
  rw [calculateCorrelation]
  by_cases hg : xValues.length ≠ yValues.length ∨ xValues.length = 0
  · rw [if_pos hg]
    simp
  · rw [if_neg hg]
    push_neg at hg
    obtain ⟨hlen, hn0⟩ := hg
    by_cases hd : Real.sqrt
        ((((xValues.length : ℚ) * (xValues.map fun x => x * x).sum - xValues.sum * xValues.sum) *
          ((xValues.length : ℚ) * (yValues.map fun y => y * y).sum - yValues.sum * yValues.sum) : ℚ) : ℝ) = 0
    · rw [if_pos hd]
      simp
    · rw [if_neg hd]
      have key := pearson_numerator_sq_le xValues.length
        (fun i => xValues.getD i 0) (fun i => yValues.getD i 0) hn0
        xValues.sum yValues.sum
        (((xValues.zip yValues).map fun p => p.1 * p.2).sum)
        ((xValues.map fun x => x * x).sum)
        ((yValues.map fun y => y * y).sum)
        (list_sum_eq_range xValues)
        (by rw [list_sum_eq_range yValues, hlen])
        (list_zip_sum_eq_range (fun a b => a * b) xValues yValues hlen)
        (list_map_sum_eq_range (fun x => x * x) xValues)
        (by rw [list_map_sum_eq_range (fun y => y * y) yValues, hlen])
      have hpos : 0 < Real.sqrt
          ((((xValues.length : ℚ) * (xValues.map fun x => x * x).sum - xValues.sum * xValues.sum) *
            ((xValues.length : ℚ) * (yValues.map fun y => y * y).sum - yValues.sum * yValues.sum) : ℚ) : ℝ) :=
        lt_of_le_of_ne (Real.sqrt_nonneg _) (Ne.symm hd)
      have hcast : ((((xValues.length : ℚ) * ((xValues.zip yValues).map fun p => p.1 * p.2).sum -
            xValues.sum * yValues.sum : ℚ)) : ℝ) ^ 2 ≤
          ((((xValues.length : ℚ) * (xValues.map fun x => x * x).sum - xValues.sum * xValues.sum) *
            ((xValues.length : ℚ) * (yValues.map fun y => y * y).sum - yValues.sum * yValues.sum) : ℚ) : ℝ) := by
        exact_mod_cast key
      have habs := Real.sqrt_le_sqrt hcast
      rw [Real.sqrt_sq_eq_abs] at habs
      rw [abs_div, abs_of_nonneg (Real.sqrt_nonneg _)]
      exact (div_le_one hpos).mpr habs

/-- C4: calculateCorrelation returns exactly 0 (a genuine number, never
NaN/Infinity, and no exception since the embedding is total) on mismatched
lengths, on empty input, and when either variance factor of the
sum-of-products denominator is 0. -/
theorem calculateCorrelation_zero_cases (xValues yValues : List ℚ) :
    (xValues.length ≠ yValues.length → calculateCorrelation xValues yValues = 0) ∧
    (xValues = [] ∧ yValues = [] → calculateCorrelation xValues yValues = 0) ∧
    (((xValues.length : ℚ) * (xValues.map fun x => x * x).sum - xValues.sum * xValues.sum = 0 ∨
      (xValues.length : ℚ) * (yValues.map fun y => y * y).sum - yValues.sum * yValues.sum = 0) →
      calculateCorrelation xValues yValues = 0) := by
  refine ⟨?_, ?_, ?_⟩
  · intro h
    rw [calculateCorrelation, if_pos (Or.inl h)]
  · rintro ⟨hx, hy⟩
    subst hx
    subst hy
    simp [calculateCorrelation]
  · intro h
    by_cases hg : xValues.length ≠ yValues.length ∨ xValues.length = 0
    · rw [calculateCorrelation, if_pos hg]
    · simp only [calculateCorrelation]
      rw [if_neg hg]
      have hzero : ((xValues.length : ℚ) * (xValues.map fun x => x * x).sum - xValues.sum * xValues.sum) *
          ((xValues.length : ℚ) * (yValues.map fun y => y * y).sum - yValues.sum * yValues.sum) = 0 := by
        rcases h with h | h
        · rw [h, zero_mul]
        · rw [h, mul_zero]
      have hcast0 : ((((xValues.length : ℚ) * (xValues.map fun x => x * x).sum - xValues.sum * xValues.sum) *
          ((xValues.length : ℚ) * (yValues.map fun y => y * y).sum - yValues.sum * yValues.sum) : ℚ) : ℝ) = 0 := by
        exact_mod_cast hzero
      rw [hcast0, Real.sqrt_zero, if_pos rfl]

/-- The x series of the C4 witness. -/
def cxs : List ℚ := [1, 2]

/-- The y series of the C4 witness: constant, hence zero variance. -/
def cys : List ℚ := [3, 3]

/-- C4 witness: a constant y series has a zero variance factor, and the
correlation is 0. -/
theorem calculateCorrelation_zero_cases_witness :
    ((cxs.length : ℚ) * (cxs.map fun x => x * x).sum - cxs.sum * cxs.sum = 0 ∨
      (cxs.length : ℚ) * (cys.map fun y => y * y).sum - cys.sum * cys.sum = 0) ∧
    calculateCorrelation cxs cys = 0 :=
  ⟨Or.inr (by norm_num [cxs, cys]),
    (calculateCorrelation_zero_cases cxs cys).2.2 (Or.inr (by norm_num [cxs, cys]))⟩

/-! ## Matrix cell specification -/

/-- Spec-side reading of the retained data points: the observations, kept in
original order, whose values for the dimension and the parameter both exist
and are finite. -/
def specDataPoints (allRuns : List RunObs) (errorDim param : String) : List DataPoint :=
  (allRuns.filter fun run =>
      (finVal (recGet run.gpsErrors errorDim)).isSome &&
        (finVal (recGet run.finalParams param)).isSome).map
    fun run =>
      { x := (finVal (recGet run.gpsErrors errorDim)).getD 0
        y := (finVal (recGet run.finalParams param)).getD 0
        label := run.label }

theorem validPairs_eq_specDataPoints (allRuns : List RunObs) (errorDim param : String) :
    validPairs allRuns errorDim param = specDataPoints allRuns errorDim param := by
  induction allRuns with
  | nil => rfl
  | cons run rest ih =>
      rcases hx : finVal (recGet run.gpsErrors errorDim) with _ | xq <;>
        rcases hy : finVal (recGet run.finalParams param) with _ | yq <;>
          simp [validPairs, specDataPoints, hx, hy, List.filterMap_cons] <;>
            simpa [validPairs, specDataPoints] using ih

theorem recGet_map_self {β : Type} (l : List String) (g : String → β) (k : String) (v : β)
    (h : recGet (l.map fun d => (d, g d)) k = some v) : v = g k := by
  induction l with
  | nil => simp at h
  | cons d rest ih =>
      rw [List.map_cons, recGet_cons] at h
      by_cases hd : d = k
      · rw [if_pos hd] at h
        subst hd
        exact (Option.some_inj.mp h).symm
      · rw [if_neg hd] at h
        exact ih h

/-- C7: every stored matrix cell has its coefficient in [-1, 1], and its
dataPoints are exactly the observations, in original order, whose values
for that dimension and parameter both exist and are finite. -/
theorem buildMatrixFromRuns_cell_spec (allRuns : List RunObs) (errorDim param : String)
    (pm : Rec CorrelationResult) (r : CorrelationResult)
    (h1 : recGet (buildMatrixFromRuns allRuns) errorDim = some pm)
    (h2 : recGet pm param = some r) :
    (-1 : ℝ) ≤ r.coefficient ∧ r.coefficient ≤ 1 ∧
      r.dataPoints = specDataPoints allRuns errorDim param := by
  cases allRuns with
  | nil => simp [buildMatrixFromRuns] at h1
  | cons firstRun rest =>
      rw [buildMatrixFromRuns] at h1
      have hpm := recGet_map_self (recKeys firstRun.gpsErrors) _ errorDim pm h1
      subst hpm
      have hr := recGet_map_self (recKeys firstRun.finalParams) _ param r h2
      subst hr
      refine ⟨?_, ?_, ?_⟩
      · have hb := abs_calculateCorrelation_le_one
          ((validPairs (firstRun :: rest) errorDim param).map DataPoint.x)
          ((validPairs (firstRun :: rest) errorDim param).map DataPoint.y)
        exact neg_le_of_abs_le hb
      · have hb := abs_calculateCorrelation_le_one
          ((validPairs (firstRun :: rest) errorDim param).map DataPoint.x)
          ((validPairs (firstRun :: rest) errorDim param).map DataPoint.y)
        exact le_of_abs_le hb
      · exact validPairs_eq_specDataPoints (firstRun :: rest) errorDim param

/-- A one-observation run list for the C7 witness. -/
def demoRun : RunObs := ⟨[("d", JSNum.fin 0)], [("p", JSNum.fin 1)], "L"⟩

/-- The inner record the C7 witness matrix stores at dimension "d". -/
noncomputable def demoPM : Rec CorrelationResult :=
  (recGet (buildMatrixFromRuns [demoRun]) "d").getD []

/-- The cell the C7 witness matrix stores at ("d", "p"). -/
noncomputable def demoR : CorrelationResult :=
  (recGet demoPM "p").getD ⟨"", "", 0, []⟩

/-- C7 witness: on a concrete one-observation matrix the stored cell exists,
its coefficient is in [-1, 1] and its data points match the filter. -/
theorem buildMatrixFromRuns_cell_spec_witness :
    (recGet (buildMatrixFromRuns [demoRun]) "d" = some demoPM ∧
      recGet demoPM "p" = some demoR) ∧
    ((-1 : ℝ) ≤ demoR.coefficient ∧ demoR.coefficient ≤ 1 ∧
      demoR.dataPoints = specDataPoints [demoRun] "d" "p") := by
  have h1 : recGet (buildMatrixFromRuns [demoRun]) "d" = some demoPM := rfl
  have h2 : recGet demoPM "p" = some demoR := rfl
  exact ⟨⟨h1, h2⟩, buildMatrixFromRuns_cell_spec [demoRun] "d" "p" demoPM demoR h1 h2⟩

/-- All stored results of a matrix, in encounter order (outer insertion
order, then inner insertion order). -/
def collectResults (matrix : Rec (Rec CorrelationResult)) : List CorrelationResult :=
  matrix.flatMap fun pr => pr.2.map Prod.snd

theorem filter_orderedInsert_key (k : ℝ) (a : CorrelationResult) (l : List CorrelationResult) :
    ((l.orderedInsert (fun x y => |y.coefficient| ≤ |x.coefficient|) a).filter
        fun x => decide (|x.coefficient| = k)) =
      if |a.coefficient| = k then
        a :: l.filter fun x => decide (|x.coefficient| = k)
      else l.filter fun x => decide (|x.coefficient| = k) := by
  induction l with
  | nil =>
      by_cases hk : |a.coefficient| = k <;> simp [List.orderedInsert, hk]
  | cons b l ih =>
      by_cases hr : |b.coefficient| ≤ |a.coefficient|
      · rw [List.orderedInsert, if_pos hr]
        by_cases hk : |a.coefficient| = k <;> simp [List.filter_cons, hk]
      · rw [List.orderedInsert, if_neg hr]
        by_cases hk : |a.coefficient| = k
        · have hbk : ¬(|b.coefficient| = k) := by
            intro hb
            exact hr (le_of_eq (hb.trans hk.symm))
          simp [List.filter_cons, hbk, hk, ih]
        · by_cases hbk : |b.coefficient| = k <;> simp [List.filter_cons, hbk, hk, ih]

theorem filter_insertionSort_key (k : ℝ) (l : List CorrelationResult) :
    ((l.insertionSort (fun x y => |y.coefficient| ≤ |x.coefficient|)).filter
        fun x => decide (|x.coefficient| = k)) =
      l.filter fun x => decide (|x.coefficient| = k) := by
  induction l with
  | nil => rfl
  | cons a l ih =>
      rw [List.insertionSort, filter_orderedInsert_key]
      by_cases hk : |a.coefficient| = k <;> simp [List.filter_cons, hk, ih]

/-- C5: findStrongestCorrelations returns a sequence sorted descending by
absolute coefficient; for every key the sub-sequence with that absolute
coefficient equals, in order, the encounter-ordered stored results meeting
the threshold with that absolute coefficient (stable selection); and when
every stored coefficient is 0.5 and the threshold is at least 0.9 the
result is empty. -/
theorem findStrongestCorrelations_spec (matrix : Rec (Rec CorrelationResult)) (threshold : ℝ) :
    (findStrongestCorrelations matrix threshold).Sorted
      (fun a b => |b.coefficient| ≤ |a.coefficient|) ∧
    (∀ k : ℝ, ((findStrongestCorrelations matrix threshold).filter
        fun r => decide (|r.coefficient| = k)) =
      (((collectResults matrix).filter fun r => decide (threshold ≤ |r.coefficient|)).filter
        fun r => decide (|r.coefficient| = k))) ∧
    ((∀ r ∈ collectResults matrix, r.coefficient = 1/2) → (9/10 : ℝ) ≤ threshold →
      findStrongestCorrelations matrix threshold = []) := by
  refine ⟨?_, ?_, ?_⟩
  · simp only [findStrongestCorrelations]
    haveI ht : IsTotal CorrelationResult (fun a b => |b.coefficient| ≤ |a.coefficient|) :=
      ⟨fun a b => le_total _ _⟩
    haveI htr : IsTrans CorrelationResult (fun a b => |b.coefficient| ≤ |a.coefficient|) :=
      ⟨fun a b c hab hbc => le_trans hbc hab⟩
    exact List.sorted_insertionSort _ _
  · intro k
    simp only [findStrongestCorrelations, collectResults]
    exact filter_insertionSort_key k _
  · intro hall hth
    simp only [findStrongestCorrelations]
    have hempty : ((matrix.flatMap fun pr => pr.2.map Prod.snd).filter
        fun r => decide (threshold ≤ |r.coefficient|)) = [] := by
      rw [List.filter_eq_nil_iff]
      intro r hr
      have hc : r.coefficient = 1/2 := hall r hr
      simp only [hc, decide_eq_true_eq]
      intro hle
      rw [abs_of_pos (by norm_num : (0 : ℝ) < 1/2)] at hle
      linarith
    rw [hempty]
    rfl

/-- A matrix whose only stored coefficient is 0.5, for the C5 witness. -/
noncomputable def demoMatrix05 : Rec (Rec CorrelationResult) :=
  [("d", [("p", ⟨"d", "p", 1/2, []⟩)])]

/-- C5 witness: with threshold 0.9 on a matrix containing only coefficients
of 0.5, findStrongestCorrelations returns the empty sequence. -/
theorem findStrongestCorrelations_spec_witness :
    findStrongestCorrelations demoMatrix05 (9/10) = [] :=
  (findStrongestCorrelations_spec demoMatrix05 (9/10)).2.2
    (by
      intro r hr
      have hr' : r = ⟨"d", "p", 1/2, []⟩ := by
        simpa [collectResults, demoMatrix05] using hr
      rw [hr'])
    (le_refl _)
